import Mathlib

/-!
Verification of the DCgMail categorization engine and pipeline orchestrator.

This file gives a shallow embedding of the repository code that the claims
are about:

* `src/interfaces.py` — the data model (`Email`, `CategorizedEmail`,
  `EmailCollection`) and the exception taxonomy.
* `src/src/categorizer.py` — `RegexCategorizer`: rule loading with regex
  compilation at load time (`_load_rules`), the candidate-collecting matcher
  `_match`, and `get_categories`.
* `src/src/categorizers/simple_categorizer.py` — `SimpleCategorizer`:
  conjunction-style matching with empty-list wildcards, per-match regex
  compilation with error recovery, and its own `get_categories`.
* `src/src/core.py` — `EmailProcessor.process`: the
  authenticate → fetch → categorize → aggregate → notify pipeline with its
  try/except structure.

The Python regex engine (module `re`) is external to the repository; compiled
patterns are modelled by their observable behavior (a Boolean `search`
function plus the original pattern text), and `re.compile` / `re.search` are
modelled by an abstract `RegexEngine`, instantiated for concrete inputs by
`litEngine`, a faithful model of Python `re` on the metacharacter-free
fragment used in the concrete test inputs. Floats (confidences 1.0 / 0.8 /
0.0) are modelled as rationals: every confidence arising in this code is
exactly representable, so no rounding behavior is lost. Wall-clock
timestamps (`EmailCollection.timestamp`, `Email.timestamp`) are irrelevant
to every claim and are carried as plain naturals.
-/

namespace DCGMail

/-- `Email` dataclass of `src/interfaces.py` (lines 22-35): one fetched
message. `timestamp` is an abstract instant; `labels` defaults to `[]` in
`__post_init__`, modelled by the caller passing the list explicitly. -/
structure Email where
  id : String
  sender : String
  subject : String
  snippet : String
  timestamp : Nat := 0
  read : Bool := false
  labels : List String := []
  deriving DecidableEq, Repr

/-- `CategorizedEmail` dataclass of `src/interfaces.py` (lines 38-44): an
email with its assigned category, confidence in [0,1] and reason text. Both
categorizers always supply a reason, so it is carried as a plain string. -/
structure CategorizedEmail where
  email : Email
  category : String
  confidence : ℚ
  reason : String
  deriving DecidableEq, Repr

/-- `EmailCollection` dataclass of `src/interfaces.py` (lines 47-57).
`by_category` is a Python dict built by insertion; it is modelled as an
association list in insertion order with unique keys (exactly how
`EmailProcessor.process` builds it). The wall-clock `timestamp` field is
omitted: no claim mentions it. -/
structure EmailCollection where
  emails : List CategorizedEmail
  total_count : Nat
  by_category : List (String × Nat)
  deriving DecidableEq, Repr

/-- A compiled regex, the result of Python `re.compile(p)`: modelled by its
observable interface, the `.pattern` source text (used in reason strings in
`RegexCategorizer._match`) and the Boolean outcome of `.search(text)`. -/
structure Pattern where
  pattern : String
  search : String → Bool

/-- The external Python `re` module, as used by the two categorizers:
`compile p` models `re.compile(p)` (which may raise `re.error` on a
malformed pattern, modelled as `Except.error`), and `searchCI p t` models
`re.search(p, t, re.IGNORECASE)` (which may likewise raise `re.error`). -/
structure RegexEngine where
  compile : String → Except String Pattern
  searchCI : String → String → Except String Bool

/-- One raw category entry as parsed from `categories.json`: the dict the
loaders read with `rule.get("patterns", [])`, `rule.get("senders", [])` and
`rule.get("priority", default)`. A missing `priority` key is `none`; the two
categorizers apply different defaults (50 vs 999) at their respective use
sites, exactly as in the source. -/
structure RawRule where
  patterns : List String
  senders : List String
  priority : Option Int
  deriving DecidableEq, Repr

/-! ### A concrete model of Python `re` on the literal fragment

The concrete inputs used below only ever use metacharacter-free patterns
(for which `re.search` is plain substring search, and `re.IGNORECASE` is
case-folded substring search) and the one malformed pattern `"["` (for which
`re.compile` and `re.search` raise `re.error: unterminated character set`).
`litEngine` models exactly that fragment. -/

/-- Python `str.lower()` (ASCII-faithful): lowercase each character.
(`String.toLower` computes the same string; this form reduces in the
kernel.) -/
def lowerStr (s : String) : String :=
  String.mk (s.toList.map Char.toLower)

/-- Substring test on character lists: true iff `sub` occurs contiguously in
the second list. -/
def containsSub (sub : List Char) : List Char → Bool
  | [] => sub.isEmpty
  | c :: rest => sub.isPrefixOf (c :: rest) || containsSub sub rest

/-- Model of `re.compile(p).search(t)` for a metacharacter-free pattern `p`:
case-sensitive substring search. -/
def litSearch (pat : String) (text : String) : Bool :=
  containsSub pat.toList text.toList

/-- A pattern of the literal fragment is malformed iff it contains `[`
(Python: `re.error: unterminated character set`). -/
def litMalformed (pat : String) : Bool :=
  pat.toList.contains '['

/-- Concrete regex engine for the literal fragment: metacharacter-free
patterns behave as substring search (case-folded under `IGNORECASE`), and a
pattern containing `[` raises. -/
def litEngine : RegexEngine where
  compile p :=
    if litMalformed p then .error "unterminated character set"
    else .ok ⟨p, litSearch p⟩
  searchCI p t :=
    if litMalformed p then .error "unterminated character set"
    else .ok (litSearch (lowerStr p) (lowerStr t))

/-! ### RegexCategorizer (`src/src/categorizer.py`) -/

/-- One entry of `RegexCategorizer._rules` after `_load_rules` (lines
59-64): patterns and senders compiled, priority defaulted to 50. -/
structure CompiledRule where
  patterns : List Pattern
  senders : List Pattern
  priority : Int

/-- `_load_rules` body for one category entry (lines 60-63): compile every
content pattern and every sender pattern with `re.compile`; a single
`re.error` propagates and aborts the whole load. Default priority 50. -/
def compileRule (eng : RegexEngine) (r : RawRule) : Except String CompiledRule := do
  let ps ← r.patterns.mapM eng.compile
  let ss ← r.senders.mapM eng.compile
  pure ⟨ps, ss, r.priority.getD 50⟩

/-- `RegexCategorizer._load_rules` (lines 59-64): compile each category
entry in configuration order; any compilation error aborts loading (there is
no try/except around `re.compile` in the source). -/
def loadRules (eng : RegexEngine) (raw : List (String × RawRule)) :
    Except String (List (String × CompiledRule)) :=
  raw.mapM fun cr => do
    let compiled ← compileRule eng cr.2
    pure (cr.1, compiled)

/-- The confidence 0.8 of a content-pattern match, as the already-reduced
rational 4/5 (a `Rat.mk'` literal, so that kernel reduction works on it). -/
def contentConf : ℚ := ⟨4, 5, by norm_num, by norm_num⟩

/-- `contentConf` is the 0.8 of the source. -/
theorem contentConf_eq : contentConf = 4/5 := by
  show (⟨4, 5, by norm_num, by norm_num⟩ : ℚ) = 4/5
  rw [Rat.mk'_eq_divInt]
  norm_num [Rat.divInt_eq_div]

/-- One element of the `matches` list built by `RegexCategorizer._match`
(lines 140-149): `(category, confidence, reason, priority)`. -/
structure Candidate where
  category : String
  confidence : ℚ
  reason : String
  priority : Int
  deriving DecidableEq, Repr

/-- The candidates one rule contributes in `_match` (lines 136-149): every
sender pattern matching `email.sender` yields a confidence-1.0 candidate,
then every content pattern matching `subject ++ " " ++ snippet` yields a
confidence-0.8 candidate. -/
def ruleCandidates (category : String) (r : CompiledRule)
    (sender text : String) : List Candidate :=
  (r.senders.filter (fun p => p.search sender)).map
      (fun p => ⟨category, 1, "Sender matched: " ++ p.pattern, r.priority⟩)
    ++ (r.patterns.filter (fun p => p.search text)).map
      (fun p => ⟨category, contentConf, "Pattern matched: " ++ p.pattern,
        r.priority⟩)

/-- The full `matches` list of `_match`: rules are visited in configuration
(dict insertion) order. `text` is `f"{email.subject} {email.snippet}"`. -/
def allCandidates (rules : List (String × CompiledRule)) (e : Email) :
    List Candidate :=
  rules.flatMap fun cr =>
    ruleCandidates cr.1 cr.2 e.sender (e.subject ++ " " ++ e.snippet)

/-- The total preorder realised by the key
`matches.sort(key=lambda m: (m[3], -m[1]))` (line 155): ascending priority,
then descending confidence. -/
def candOrder (a b : Candidate) : Prop :=
  a.priority < b.priority ∨
    (a.priority = b.priority ∧ b.confidence ≤ a.confidence)

instance : DecidableRel candOrder := fun a b => by
  unfold candOrder; infer_instance

instance : IsTotal Candidate candOrder where
  total a b := by
    rcases lt_trichotomy a.priority b.priority with h | h | h
    · exact Or.inl (Or.inl h)
    · rcases le_total b.confidence a.confidence with hc | hc
      · exact Or.inl (Or.inr ⟨h, hc⟩)
      · exact Or.inr (Or.inr ⟨h.symm, hc⟩)
    · exact Or.inr (Or.inl h)

instance : IsTrans Candidate candOrder where
  trans a b c hab hbc := by
    rcases hab with h1 | ⟨h1, hc1⟩ <;> rcases hbc with h2 | ⟨h2, hc2⟩
    · exact Or.inl (h1.trans h2)
    · exact Or.inl (h2 ▸ h1)
    · exact Or.inl (h1 ▸ h2)
    · exact Or.inr ⟨h1.trans h2, hc2.trans hc1⟩

/-- `RegexCategorizer._match` (lines 126-157): collect all candidates; if
none, return the fallback triple; otherwise sort by (priority asc,
confidence desc) and return the first candidate's fields. Python's
`list.sort` is a stable sort for the total preorder induced by the key, and
`List.insertionSort` is a stable sort for the same preorder; two stable
sorts of one list under one total preorder produce the identical list, so
the embedding returns exactly the source's result, ties included. -/
def matchEmail (rules : List (String × CompiledRule)) (e : Email) :
    String × ℚ × String :=
  let ms := allCandidates rules e
  if ms.isEmpty then ("Uncategorized", 0, "No rules matched")
  else
    match ms.insertionSort candOrder with
    | [] => ("Uncategorized", 0, "No rules matched")
    | best :: _ => (best.category, best.confidence, best.reason)

/-- `RegexCategorizer.categorize` (lines 70-88): first component of
`_match`. -/
def regexCategorize (rules : List (String × CompiledRule)) (e : Email) :
    String :=
  (matchEmail rules e).1

/-- `RegexCategorizer.categorize_batch` (lines 90-111): one
`CategorizedEmail` per input email, in order. -/
def regexCategorizeBatch (rules : List (String × CompiledRule))
    (emails : List Email) : List CategorizedEmail :=
  emails.map fun e =>
    let r := matchEmail rules e
    ⟨e, r.1, r.2.1, r.2.2⟩

/-- Lexicographic code-point comparison on character lists: the order
Python `sorted` uses on `str`. -/
def lexLE : List Char → List Char → Bool
  | [], _ => true
  | _ :: _, [] => false
  | a :: as, b :: bs =>
    decide (a < b) || (decide (a = b) && lexLE as bs)

/-- The string order of Python `sorted`, as a proposition. -/
def strOrder (a b : String) : Prop := lexLE a.toList b.toList = true

instance : DecidableRel strOrder := fun a b => by
  unfold strOrder; infer_instance

theorem lexLE_total : ∀ as bs : List Char, lexLE as bs ∨ lexLE bs as := by
  intro as
  induction as with
  | nil => intro bs; exact Or.inl rfl
  | cons a as ih =>
    intro bs
    cases bs with
    | nil => exact Or.inr rfl
    | cons b bs =>
      rcases lt_trichotomy a b with h | h | h
      · exact Or.inl (by simp [lexLE, h])
      · subst h
        rcases ih bs with h' | h'
        · exact Or.inl (by simp [lexLE, h'])
        · exact Or.inr (by simp [lexLE, h'])
      · exact Or.inr (by simp [lexLE, h])

theorem lexLE_trans : ∀ as bs cs : List Char,
    lexLE as bs → lexLE bs cs → lexLE as cs := by
  intro as
  induction as with
  | nil => intro bs cs _ _; exact rfl
  | cons a as ih =>
    intro bs cs hab hbc
    cases bs with
    | nil => simp [lexLE] at hab
    | cons b bs =>
      cases cs with
      | nil => simp [lexLE] at hbc
      | cons c cs =>
        simp only [lexLE, Bool.or_eq_true, Bool.and_eq_true,
          decide_eq_true_eq] at hab hbc ⊢
        rcases hab with h1 | ⟨h1, h1'⟩ <;> rcases hbc with h2 | ⟨h2, h2'⟩
        · exact Or.inl (h1.trans h2)
        · exact Or.inl (h2 ▸ h1)
        · exact Or.inl (h1 ▸ h2)
        · exact Or.inr ⟨h1.trans h2, ih bs cs h1' h2'⟩

instance : IsTotal String strOrder where
  total a b := lexLE_total a.toList b.toList

instance : IsTrans String strOrder where
  trans a b c := lexLE_trans a.toList b.toList c.toList

/-- `RegexCategorizer.get_categories` (lines 113-120):
`sorted(self._rules.keys()) + ["Uncategorized"]`. -/
def regexGetCategories (rules : List (String × CompiledRule)) : List String :=
  (rules.map Prod.fst).insertionSort strOrder ++ ["Uncategorized"]

/-! ### SimpleCategorizer (`src/src/categorizers/simple_categorizer.py`) -/

/-- Helper for `extractEmail`: scan the characters after a `<` for the
first `>` that closes a nonempty group, accumulating the group content (in
reverse). A `>` met while the group is still empty is consumed as content,
exactly as the lazy `.+?` must. -/
def scanClose (acc : List Char) : List Char → Option (List Char)
  | [] => none
  | c :: rest =>
    if c = '>' ∧ acc ≠ [] then some acc.reverse
    else scanClose (c :: acc) rest

/-- Helper for `extractEmail`: find the first `<` and scan for its closing
`>`. Starting at the first `<` is faithful to the leftmost-match rule of
`re.search`: any closing `>` that would let a later `<` match also closes
the first one. -/
def findAngle : List Char → Option (List Char)
  | [] => none
  | c :: rest => if c = '<' then scanClose [] rest else findAngle rest

/-- Models the address extraction in `SimpleCategorizer._matches_sender`
(lines 177-182): `re.search` with the lazy group regex over `<`...`>` picks
the text between the first `<` and the first `>` closing a nonempty group;
the result (or, absent a match, the whole sender) is lowercased. -/
def extractEmail (sender : String) : String :=
  match findAngle sender.toList with
  | some cs => lowerStr (String.mk cs)
  | none => lowerStr sender

/-- Python `str.endswith`. -/
def strEndsWith (s suffix : String) : Bool :=
  suffix.toList.isSuffixOf s.toList

/-- One iteration of the loop in `_matches_sender` (lines 184-192): an
allowed entry starting with `@` is a case-folded domain-suffix test,
anything else an exact (case-folded) address comparison. -/
def senderAllowed (senderEmail : String) (allowed : String) : Bool :=
  if "@".toList.isPrefixOf allowed.toList then
    strEndsWith senderEmail (lowerStr allowed)
  else senderEmail == lowerStr allowed

/-- `SimpleCategorizer._matches_sender` (lines 162-194). -/
def matchesSender (sender : String) (allowedSenders : List String) : Bool :=
  let senderEmail := extractEmail sender
  allowedSenders.any (senderAllowed senderEmail)

/-- The warning text logged at line 213 when a pattern fails to compile
(the quotes around the pattern are elided). -/
def warnMsg (pat msg : String) : String :=
  "Invalid regex pattern " ++ pat ++ ": " ++ msg

/-- `SimpleCategorizer._matches_patterns` (lines 196-216): try each pattern
with `re.search(p, text, re.IGNORECASE)`; a match returns immediately, an
`re.error` logs a warning and skips to the next pattern. Returns the Boolean
outcome together with the warnings logged. -/
def matchesPatterns (eng : RegexEngine) (text : String) :
    List String → Bool × List String
  | [] => (false, [])
  | p :: rest =>
    match eng.searchCI p text with
    | .error msg =>
      let r := matchesPatterns eng text rest
      (r.1, warnMsg p msg :: r.2)
    | .ok true => (true, [])
    | .ok false => matchesPatterns eng text rest

/-- `SimpleCategorizer._matches_rules` (lines 132-160): a nonempty `senders`
list must match, then a nonempty `patterns` list must match against the
lowercased `subject ++ " " ++ snippet`; a rule with no criteria at all
matches ("no rules, which also counts as a match" per its docstring).
Returns the Boolean outcome together with the warnings logged. -/
def matchesRules (eng : RegexEngine) (e : Email) (r : RawRule) :
    Bool × List String :=
  if r.senders ≠ [] ∧ matchesSender e.sender r.senders = false then (false, [])
  else if r.patterns ≠ [] then
    matchesPatterns eng (lowerStr (e.subject ++ " " ++ e.snippet)) r.patterns
  else (true, [])

/-- The `matches` list built by `SimpleCategorizer.categorize` (lines
67-75): every category whose rules match, paired with its priority
(default 999 here, unlike the 50 of `RegexCategorizer`). -/
def simpleMatches (eng : RegexEngine) (cats : List (String × RawRule))
    (e : Email) : List (String × Int) :=
  cats.filterMap fun cr =>
    if (matchesRules eng e cr.2).1 then some (cr.1, cr.2.priority.getD 999)
    else none

/-- The total preorder realised by `matches.sort(key=lambda x: x[1])`
(line 82): ascending priority. -/
def priOrder (a b : String × Int) : Prop := a.2 ≤ b.2

instance : DecidableRel priOrder := fun a b => by
  unfold priOrder; infer_instance

instance : IsTotal (String × Int) priOrder where
  total a b := le_total a.2 b.2

instance : IsTrans (String × Int) priOrder where
  trans _ _ _ h1 h2 := le_trans h1 h2

/-- `SimpleCategorizer.categorize` (lines 57-90): fallback on no match,
otherwise the first category after the stable sort by priority (stable-sort
agreement with Python `list.sort` as for `matchEmail`). -/
def simpleCategorize (eng : RegexEngine) (cats : List (String × RawRule))
    (e : Email) : String :=
  let ms := simpleMatches eng cats e
  if ms.isEmpty then "Uncategorized"
  else
    match ms.insertionSort priOrder with
    | [] => "Uncategorized"
    | c :: _ => c.1

/-- `SimpleCategorizer.categorize_batch` (lines 92-121): confidence 1.0 for
any category other than the fallback, else 0.0; reason text per line 112
(the quotes around the category name in the matched case are elided). -/
def simpleCategorizeBatch (eng : RegexEngine)
    (cats : List (String × RawRule)) (emails : List Email) :
    List CategorizedEmail :=
  emails.map fun e =>
    let category := simpleCategorize eng cats e
    let confidence : ℚ := if category ≠ "Uncategorized" then 1 else 0
    ⟨e, category, confidence,
      if confidence > 0 then "Matched rules for " ++ category
      else "No matching rules"⟩

/-- `SimpleCategorizer.get_categories` (lines 123-130):
`list(self.categories.keys())` — configuration order, no sort, no appended
fallback. -/
def simpleGetCategories (cats : List (String × RawRule)) : List String :=
  cats.map Prod.fst

/-! ### Pipeline orchestrator (`src/src/core.py`) -/

/-- A raised Python exception, following the hierarchy of
`src/interfaces.py` (lines 331-358): the five `DCGMailException` kinds plus
`other` for any further `Exception` subclass. (`BaseException` escapees such
as `KeyboardInterrupt` are delivered by the runtime, not by collaborators,
and are outside the model.) -/
inductive Exc where
  | credentialError (msg : String)
  | providerError (msg : String)
  | categorizerError (msg : String)
  | notifierError (msg : String)
  | configError (msg : String)
  | other (msg : String)
  deriving DecidableEq, Repr

/-- The observable collaborator calls the claims talk about: the
categorizer invocation and the two notifier operations. -/
inductive Event where
  | categorizeBatch (emails : List Email)
  | sendSummary (collection : EmailCollection)
  | sendAlert (msg : String)
  deriving DecidableEq, Repr

/-- The provider collaborator (`EmailProvider` interface), as a behavior:
each operation either raises or returns its value. Only the two operations
`process` calls are modelled. -/
structure ProviderBehavior where
  authenticate : Except Exc Bool
  fetchUnread : Nat → Except Exc (List Email)

/-- The categorizer collaborator, as a behavior. -/
structure CategorizerBehavior where
  categorizeBatch : List Email → Except Exc (List CategorizedEmail)

/-- The notifier collaborator (`Notifier` interface), as a behavior. -/
structure NotifierBehavior where
  sendSummary : EmailCollection → Except Exc Bool
  sendAlert : String → Except Exc Bool

/-- The dict update `by_category[category] += 1` (with `= 0` insertion for
a fresh key), `src/src/core.py` lines 98-102: increment the first entry for
the key, or append a fresh entry. Built only from `[]`, keys stay unique,
so this is exactly the Python dict. -/
def bumpCategory : List (String × Nat) → String → List (String × Nat)
  | [], c => [(c, 1)]
  | (k, n) :: rest, c =>
    if k = c then (k, n + 1) :: rest else (k, n) :: bumpCategory rest c

/-- The `by_category` loop of `process` (lines 97-102). -/
def buildByCategory (categorized : List CategorizedEmail) :
    List (String × Nat) :=
  categorized.foldl (fun m ce => bumpCategory m ce.category) []

/-- The `EmailCollection` construction of `process` (lines 104-108): note
`total_count = len(emails)`, the fetched list, not the categorized one. -/
def buildCollection (emails : List Email)
    (categorized : List CategorizedEmail) : EmailCollection :=
  ⟨categorized, emails.length, buildByCategory categorized⟩

/-- The `try` body of `EmailProcessor.process` (lines 72-137): the value is
`(return value, notifier/categorizer call trace)`; a raised exception
carries the trace accumulated up to the raise. Mirrors the source line by
line: a `False` from `authenticate` returns `False`; an empty fetch returns
`True`, after a `send_alert("No new emails")` when a notifier is configured
and dry-run is off; otherwise categorize, build the collection, and either
skip notification (dry-run or no notifier, returning `True`) or call
`send_summary`, whose Boolean result becomes the return value. -/
def processBody (prov : ProviderBehavior) (catz : CategorizerBehavior)
    (notifier : Option NotifierBehavior) (dryRun : Bool) (limit : Nat) :
    Except (Exc × List Event) (Bool × List Event) :=
  match prov.authenticate with
  | .error e => .error (e, [])
  | .ok false => .ok (false, [])
  | .ok true =>
    match prov.fetchUnread limit with
    | .error e => .error (e, [])
    | .ok emails =>
      if emails.isEmpty then
        match notifier, dryRun with
        | some n, false =>
          match n.sendAlert "No new emails" with
          | .error e => .error (e, [Event.sendAlert "No new emails"])
          | .ok _ => .ok (true, [Event.sendAlert "No new emails"])
        | _, _ => .ok (true, [])
      else
        match catz.categorizeBatch emails with
        | .error e => .error (e, [Event.categorizeBatch emails])
        | .ok categorized =>
          let collection := buildCollection emails categorized
          if dryRun then .ok (true, [Event.categorizeBatch emails])
          else
            match notifier with
            | none => .ok (true, [Event.categorizeBatch emails])
            | some n =>
              match n.sendSummary collection with
              | .error e =>
                .error (e, [Event.categorizeBatch emails,
                  Event.sendSummary collection])
              | .ok true =>
                .ok (true, [Event.categorizeBatch emails,
                  Event.sendSummary collection])
              | .ok false =>
                .ok (false, [Event.categorizeBatch emails,
                  Event.sendSummary collection])

/-- `EmailProcessor.process` (lines 55-153): the `try` body wrapped in the
four `except` clauses (`ProviderError`, `CategorizerError`, `NotifierError`,
`Exception`), every one of which logs and returns `False`. An uncaught
exception would be `Except.error`. -/
def process (prov : ProviderBehavior) (catz : CategorizerBehavior)
    (notifier : Option NotifierBehavior) (dryRun : Bool) (limit : Nat) :
    Except Exc (Bool × List Event) :=
  match processBody prov catz notifier dryRun limit with
  | .ok r => .ok r
  | .error (Exc.providerError _, tr) => .ok (false, tr)
  | .error (Exc.categorizerError _, tr) => .ok (false, tr)
  | .error (Exc.notifierError _, tr) => .ok (false, tr)
  | .error (Exc.credentialError _, tr) => .ok (false, tr)
  | .error (Exc.configError _, tr) => .ok (false, tr)
  | .error (Exc.other _, tr) => .ok (false, tr)

/-! ### Concrete fixtures

Concrete rule sets, messages and collaborator behaviors used by the
witnesses and counterexamples below. -/

/-- An arbitrary concrete message. -/
def sampleEmail : Email :=
  { id := "m1", sender := "someone@example.com", subject := "hello",
    snippet := "world" }

/-- Split a character list on spaces (helper for the word-boundary pattern
model). -/
def wordsAux (cur : List Char) : List Char → List (List Char)
  | [] => [cur.reverse]
  | c :: rest =>
    if c = ' ' then cur.reverse :: wordsAux [] rest
    else wordsAux (c :: cur) rest

/-- Model of the compiled regex `\bw\b` (for a word `w` without
metacharacters): search for `w` as a whole word. On texts whose tokens are
separated by single spaces and carry no punctuation — the only texts it is
applied to below — splitting on spaces is exactly the word-boundary
semantics of Python `re`. -/
def wordPat (w : String) : Pattern :=
  ⟨"\\b" ++ w ++ "\\b", fun t => (wordsAux [] t.toList).contains w.toList⟩

/-- The two-category rule set of the priority tie-break scenario: Alpha
(priority 1, pattern on the word alpha) and Beta (priority 2, pattern on
the word beta). -/
def alphaBetaRules : List (String × CompiledRule) :=
  [("Alpha", ⟨[wordPat "alpha"], [], 1⟩),
   ("Beta", ⟨[wordPat "beta"], [], 2⟩)]

/-- A message whose subject+snippet text contains both words. -/
def alphaBetaEmail : Email :=
  { id := "m2", sender := "someone@example.com", subject := "alpha",
    snippet := "beta" }

/-- The compiled form of the one-rule set with the single literal content
pattern FREE (priority 1), as `loadRules` produces it. -/
def promoRules : List (String × CompiledRule) :=
  [("Promo", ⟨[⟨"FREE", litSearch "FREE"⟩], [], 1⟩)]

/-- A message whose subject contains FREE in upper case. -/
def promoUpper : Email :=
  { id := "p1", sender := "shop@example.com", subject := "FREE offer",
    snippet := "x" }

/-- The same message with the subject in lower case. -/
def promoLower : Email :=
  { id := "p1", sender := "shop@example.com", subject := "free offer",
    snippet := "x" }

/-- A provider that authenticates and fetches zero unread messages. -/
def provEmpty : ProviderBehavior := ⟨.ok true, fun _ => .ok []⟩

/-- A categorizer behavior that categorizes nothing (never reached when the
fetch is empty). -/
def catzNone : CategorizerBehavior := ⟨fun _ => .ok []⟩

/-- A notifier whose operations all succeed. -/
def notifOK : NotifierBehavior := ⟨fun _ => .ok true, fun _ => .ok true⟩

/-- A concrete message for the notifier-failure run. -/
def workEmail : Email :=
  { id := "m3", sender := "boss@corp.com", subject := "standup",
    snippet := "daily" }

/-- A provider that authenticates and fetches exactly `workEmail`. -/
def provOne : ProviderBehavior := ⟨.ok true, fun _ => .ok [workEmail]⟩

/-- A categorizer behavior that files every message under Work with
confidence 1. -/
def catzWork : CategorizerBehavior :=
  ⟨fun es => .ok (es.map (fun e => ⟨e, "Work", 1, "r"⟩))⟩

/-- A notifier whose `send_summary` reports delivery failure (returns
`False` without raising). -/
def notifFail : NotifierBehavior := ⟨fun _ => .ok false, fun _ => .ok true⟩

/-- The collection the pipeline builds for the single `workEmail`. -/
def workCollection : EmailCollection :=
  ⟨[⟨workEmail, "Work", 1, "r"⟩], 1, [("Work", 1)]⟩

/-- A provider whose `authenticate` raises `ProviderError`. -/
def provRaise : ProviderBehavior :=
  ⟨.error (Exc.providerError "api down"), fun _ => .ok []⟩

/-- An arbitrary compiled rule (for category-listing fixtures). -/
def plainRule : CompiledRule := ⟨[], [], 50⟩

/-- An arbitrary raw rule with no criteria. -/
def plainRaw : RawRule := ⟨[], [], none⟩

/-! ### Helper lemmas -/

/-- The head of a sorted-by-`insertionSort` nonempty list is `r`-below every
element of the original list. -/
theorem head_insertionSort_min {α : Type} (r : α → α → Prop) [DecidableRel r]
    [IsTotal α r] [IsTrans α r] (l : List α) (b : α) (ts : List α)
    (h : l.insertionSort r = b :: ts) : ∀ m ∈ l, r b m := by
  intro m hm
  have hperm := List.perm_insertionSort r l
  have hmem : m ∈ l.insertionSort r := (hperm.mem_iff).2 hm
  rw [h] at hmem
  rcases List.mem_cons.1 hmem with rfl | hmem
  · rcases IsTotal.total (r := r) m m with h' | h' <;> exact h'
  · have hsorted := List.sorted_insertionSort r l
    rw [h] at hsorted
    exact (List.pairwise_cons.1 hsorted).1 m hmem

/-- `insertionSort` of a nonempty list is nonempty. -/
theorem insertionSort_ne_nil {α : Type} (r : α → α → Prop) [DecidableRel r]
    (l : List α) (h : l ≠ []) : l.insertionSort r ≠ [] := by
  intro hnil
  exact h (List.eq_nil_of_length_eq_zero
    (by rw [← (List.perm_insertionSort r l).length_eq, hnil, List.length_nil]))

/-- Anatomy of a candidate: every entry `ruleCandidates` contributes carries
the rule's category and priority, and is either a sender match tagged with
confidence 1 or a content match tagged with confidence 0.8. -/
theorem mem_ruleCandidates_elim {c : String} {r : CompiledRule}
    {sender text : String} {m : Candidate}
    (h : m ∈ ruleCandidates c r sender text) :
    m.category = c ∧ m.priority = r.priority ∧
      ((m.confidence = 1 ∧ ∃ p ∈ r.senders, p.search sender = true ∧
          m.reason = "Sender matched: " ++ p.pattern) ∨
       (m.confidence = contentConf ∧ ∃ p ∈ r.patterns, p.search text = true ∧
          m.reason = "Pattern matched: " ++ p.pattern)) := by
  unfold ruleCandidates at h
  rcases List.mem_append.1 h with h' | h' <;>
    obtain ⟨p, hp, rfl⟩ := List.mem_map.1 h'
  · exact ⟨rfl, rfl, Or.inl ⟨rfl, p, (List.mem_filter.1 hp).1,
      (List.mem_filter.1 hp).2, rfl⟩⟩
  · exact ⟨rfl, rfl, Or.inr ⟨rfl, p, (List.mem_filter.1 hp).1,
      (List.mem_filter.1 hp).2, rfl⟩⟩

/-- Membership in the full candidate list. -/
theorem mem_allCandidates {rules : List (String × CompiledRule)} {e : Email}
    {m : Candidate} : m ∈ allCandidates rules e ↔
      ∃ cr ∈ rules,
        m ∈ ruleCandidates cr.1 cr.2 e.sender (e.subject ++ " " ++ e.snippet) := by
  unfold allCandidates
  simp [List.mem_flatMap]

/-- Every candidate's confidence is 1 or 0.8; in particular never 0. -/
theorem conf_of_mem_allCandidates {rules : List (String × CompiledRule)}
    {e : Email} {m : Candidate} (h : m ∈ allCandidates rules e) :
    m.confidence = 1 ∨ m.confidence = contentConf := by
  obtain ⟨cr, _, hmem⟩ := mem_allCandidates.1 h
  rcases (mem_ruleCandidates_elim hmem).2.2 with ⟨hc, _⟩ | ⟨hc, _⟩
  · exact Or.inl hc
  · exact Or.inr hc

/-- Sum of the per-category counters. -/
def sumCounts (m : List (String × Nat)) : Nat :=
  (m.map Prod.snd).sum

/-- One `bumpCategory` adds exactly one to the total count. -/
theorem sumCounts_bumpCategory (m : List (String × Nat)) (c : String) :
    sumCounts (bumpCategory m c) = sumCounts m + 1 := by
  induction m with
  | nil => rfl
  | cons kn rest ih =>
    obtain ⟨k, n⟩ := kn
    by_cases h : k = c
    · simp [bumpCategory, h, sumCounts]
      omega
    · simp [bumpCategory, h, sumCounts] at ih ⊢
      omega

/-- The `by_category` fold counts one per categorized message. -/
theorem sumCounts_fold (l : List CategorizedEmail) :
    ∀ m : List (String × Nat),
      sumCounts (l.foldl (fun m ce => bumpCategory m ce.category) m) =
        sumCounts m + l.length := by
  induction l with
  | nil => intro m; simp
  | cons ce rest ih =>
    intro m
    simp only [List.foldl_cons, List.length_cons]
    rw [ih, sumCounts_bumpCategory]
    omega

/-! ### Claims -/

/-- C1, as stated, is false of `SimpleCategorizer`: a rule whose `patterns`
and `senders` lists are both empty qualifies for every message there (its
`_matches_rules` returns True when no criterion is specified), so
`categorize` returns that rule's category, not the fallback. -/
theorem c1_counterexample :
    (matchesRules litEngine sampleEmail ⟨[], [], some 1⟩).1 = true ∧
    simpleCategorize litEngine [("All", ⟨[], [], some 1⟩)] sampleEmail =
      "All" ∧
    ("All" : String) ≠ "Uncategorized" :=
  ⟨by decide, by decide, by decide⟩

/-- C1 (amended): in `RegexCategorizer._match`, a rule's category
contributes a candidate iff at least one sender pattern matches the sender
or at least one content pattern matches subject+snippet; sender matches are
tagged with confidence 1.0 and content matches with 0.8; a rule with both
lists empty never contributes. In `SimpleCategorizer._matches_rules`,
however, a rule matches iff every specified axis matches (senders
conjunctively with patterns) and an empty axis is a wildcard: a rule with
both lists empty matches every message. -/
theorem c1_amended :
    (∀ (c : String) (r : CompiledRule) (sender text : String),
      ruleCandidates c r sender text ≠ [] ↔
        ((∃ p ∈ r.senders, p.search sender = true) ∨
         (∃ p ∈ r.patterns, p.search text = true))) ∧
    (∀ (c : String) (r : CompiledRule) (sender text : String)
        (m : Candidate), m ∈ ruleCandidates c r sender text →
      m.category = c ∧
        ((m.confidence = 1 ∧ ∃ p ∈ r.senders, p.search sender = true) ∨
         (m.confidence = contentConf ∧ ∃ p ∈ r.patterns, p.search text = true))) ∧
    (∀ (c : String) (r : CompiledRule) (sender text : String),
      r.senders = [] → r.patterns = [] → ruleCandidates c r sender text = []) ∧
    (∀ (eng : RegexEngine) (e : Email) (r : RawRule),
      (matchesRules eng e r).1 = true ↔
        ((r.senders = [] ∨ matchesSender e.sender r.senders = true) ∧
         (r.patterns = [] ∨
           (matchesPatterns eng (lowerStr (e.subject ++ " " ++ e.snippet))
             r.patterns).1 = true))) ∧
    (∀ (eng : RegexEngine) (e : Email) (r : RawRule),
      r.senders = [] → r.patterns = [] → (matchesRules eng e r).1 = true) := by
  refine ⟨?_, ?_, ?_, ?_, ?_⟩
  · intro c r sender text
    constructor
    · intro h
      obtain ⟨m, hm⟩ := List.exists_mem_of_ne_nil _ h
      rcases (mem_ruleCandidates_elim hm).2.2 with ⟨_, p, hp, hs, _⟩ | ⟨_, p, hp, hs, _⟩
      · exact Or.inl ⟨p, hp, hs⟩
      · exact Or.inr ⟨p, hp, hs⟩
    · rintro (⟨p, hp, hs⟩ | ⟨p, hp, hs⟩) <;> apply List.ne_nil_of_mem
        (a := (⟨c, _, _, r.priority⟩ : Candidate))
      · exact List.mem_append_left _
          (List.mem_map.2 ⟨p, List.mem_filter.2 ⟨hp, hs⟩, rfl⟩)
      · exact List.mem_append_right _
          (List.mem_map.2 ⟨p, List.mem_filter.2 ⟨hp, hs⟩, rfl⟩)
  · intro c r sender text m hm
    obtain ⟨hc, _, h⟩ := mem_ruleCandidates_elim hm
    refine ⟨hc, ?_⟩
    rcases h with ⟨h1, p, hp, hs, _⟩ | ⟨h1, p, hp, hs, _⟩
    · exact Or.inl ⟨h1, p, hp, hs⟩
    · exact Or.inr ⟨h1, p, hp, hs⟩
  · intro c r sender text hs hp
    unfold ruleCandidates
    rw [hs, hp]
    rfl
  · intro eng e r
    unfold matchesRules
    split_ifs with h1 h2
    · simp only [h1.1, h1.2]
      simp
    · rw [not_and_or] at h1
      simp only [ne_eq, not_not, Bool.not_eq_false] at h1
      simp [h1, h2]
    · rw [not_and_or] at h1
      simp only [ne_eq, not_not, Bool.not_eq_false] at h1
      simp only [ne_eq, not_not] at h2
      simp [h1, h2]
  · intro eng e r hs hp
    simp [matchesRules, hs, hp]

/-- C1 witness: the amended theorem applied at concrete inputs — an
empty-criteria rule contributes no `RegexCategorizer` candidate, yet
matches in `SimpleCategorizer`. -/
theorem c1_witness :
    ruleCandidates "All" ⟨[], [], 50⟩ "s" "t" = [] ∧
    (matchesRules litEngine sampleEmail ⟨[], [], none⟩).1 = true :=
  ⟨c1_amended.2.2.1 "All" ⟨[], [], 50⟩ "s" "t" rfl rfl,
   c1_amended.2.2.2.2 litEngine sampleEmail ⟨[], [], none⟩ rfl rfl⟩

/-- C2: whenever at least one candidate qualifies, `RegexCategorizer._match`
returns the fields of a candidate that is minimal in the order (priority
ascending, then confidence descending) over all candidates — the first
element after the stable sort; and concretely, with Alpha (priority 1,
pattern on the word alpha) and Beta (priority 2, pattern on the word beta),
a message containing both words is categorized Alpha. -/
theorem c2_priority_tiebreak :
    (∀ (rules : List (String × CompiledRule)) (e : Email),
      allCandidates rules e ≠ [] →
      ∃ best ∈ allCandidates rules e,
        matchEmail rules e = (best.category, best.confidence, best.reason) ∧
        ∀ m ∈ allCandidates rules e,
          best.priority < m.priority ∨
            (best.priority = m.priority ∧ m.confidence ≤ best.confidence)) ∧
    matchEmail alphaBetaRules alphaBetaEmail =
      ("Alpha", contentConf, "Pattern matched: \\balpha\\b") := by
  constructor
  · intro rules e hne
    have hsne := insertionSort_ne_nil candOrder _ hne
    obtain ⟨b, ts, hsort⟩ := List.exists_cons_of_ne_nil hsne
    refine ⟨b, ?_, ?_, ?_⟩
    · exact (List.perm_insertionSort candOrder _).mem_iff.1
        (by rw [hsort]; exact List.mem_cons_self _ _)
    · simp only [matchEmail]
      rw [if_neg (by simpa using hne), hsort]
    · intro m hm
      have h := head_insertionSort_min candOrder _ b ts hsort m hm
      unfold candOrder at h
      exact h
  · decide

/-- C2 witness: the tie-break theorem applied at the Alpha/Beta scenario. -/
theorem c2_witness :
    allCandidates alphaBetaRules alphaBetaEmail ≠ [] ∧
    ∃ best ∈ allCandidates alphaBetaRules alphaBetaEmail,
      matchEmail alphaBetaRules alphaBetaEmail =
        (best.category, best.confidence, best.reason) ∧
      ∀ m ∈ allCandidates alphaBetaRules alphaBetaEmail,
        best.priority < m.priority ∨
          (best.priority = m.priority ∧ m.confidence ≤ best.confidence) :=
  ⟨by decide,
   c2_priority_tiebreak.1 alphaBetaRules alphaBetaEmail (by decide)⟩

/-- C3, as stated, fails on `SimpleCategorizer.categorize_batch`: with zero
qualifying rules it yields category Uncategorized and confidence 0.0 as
claimed, but its reason string is No matching rules, not No rules
matched. -/
theorem c3_counterexample :
    (simpleCategorizeBatch litEngine [] [sampleEmail]).map
      (fun ce => (ce.category, ce.confidence, ce.reason)) =
      [("Uncategorized", 0, "No matching rules")] ∧
    ("No matching rules" : String) ≠ "No rules matched" :=
  ⟨by decide, by decide⟩

/-- C3 (amended): categorization always returns exactly one result;
`RegexCategorizer._match` returns exactly (Uncategorized, 0.0, No rules
matched) precisely when zero candidates qualify, while
`SimpleCategorizer.categorize_batch` returns category Uncategorized with
confidence 0.0 and the reason string No matching rules when zero rules
qualify. -/
theorem c3_amended :
    (∀ (rules : List (String × CompiledRule)) (e : Email),
      matchEmail rules e = ("Uncategorized", 0, "No rules matched") ↔
        allCandidates rules e = []) ∧
    (∀ (rules : List (String × CompiledRule)) (e : Email),
      ∃! out : String × ℚ × String, out = matchEmail rules e) ∧
    (∀ (eng : RegexEngine) (cats : List (String × RawRule)) (e : Email),
      simpleMatches eng cats e = [] →
      (simpleCategorizeBatch eng cats [e]).map
        (fun ce => (ce.category, ce.confidence, ce.reason)) =
        [("Uncategorized", 0, "No matching rules")]) := by
  refine ⟨?_, ?_, ?_⟩
  · intro rules e
    constructor
    · intro h
      by_contra hne
      have hsne := insertionSort_ne_nil candOrder _ hne
      obtain ⟨b, ts, hsort⟩ := List.exists_cons_of_ne_nil hsne
      have hb : b ∈ allCandidates rules e :=
        (List.perm_insertionSort candOrder _).mem_iff.1
          (by rw [hsort]; exact List.mem_cons_self _ _)
      have hm : matchEmail rules e = (b.category, b.confidence, b.reason) := by
        simp only [matchEmail]
        rw [if_neg (by simpa using hne), hsort]
      rw [hm] at h
      have hconf : b.confidence = 0 := by
        have h2 := congrArg (fun t => t.2.1) h
        simpa using h2
      rcases conf_of_mem_allCandidates hb with h1 | h1 <;> rw [h1] at hconf
      · exact absurd hconf (by decide)
      · exact absurd hconf (by decide)
    · intro h
      simp [matchEmail, h]
  · intro rules e
    exact ⟨matchEmail rules e, rfl, fun y hy => hy⟩
  · intro eng cats e h
    simp [simpleCategorizeBatch, simpleCategorize, h]

/-- C3 witness: the amended theorem applied with an empty rule set and a
concrete message. -/
theorem c3_witness :
    simpleMatches litEngine [] sampleEmail = [] ∧
    (simpleCategorizeBatch litEngine [] [sampleEmail]).map
      (fun ce => (ce.category, ce.confidence, ce.reason)) =
      [("Uncategorized", 0, "No matching rules")] :=
  ⟨by decide, c3_amended.2.2 litEngine [] sampleEmail (by decide)⟩

/-- C4, as stated, is false of `EmailProcessor.process`: on an empty fetch
with a configured notifier and dry-run off, the code invokes the notifier
operation `send_alert("No new emails")` before returning — the notifier is
not left untouched. -/
theorem c4_counterexample :
    provEmpty.fetchUnread 50 = .ok [] ∧
    process provEmpty catzNone (some notifOK) false 50 =
      .ok (true, [Event.sendAlert "No new emails"]) ∧
    [Event.sendAlert "No new emails"] ≠ ([] : List Event) :=
  ⟨rfl, rfl, by decide⟩

/-- C4 (amended): when the fetch returns zero messages, `process` returns
immediately without categorizing and without ever calling `send_summary`;
with no notifier or in dry-run it returns True having called nothing at
all; with a notifier configured and dry-run off it calls
`send_alert("No new emails")` exactly once, and the run succeeds iff that
alert call does not raise. -/
theorem c4_amended : ∀ (prov : ProviderBehavior) (catz : CategorizerBehavior)
    (notifier : Option NotifierBehavior) (dryRun : Bool) (limit : Nat),
    prov.authenticate = .ok true →
    prov.fetchUnread limit = .ok [] →
    ∃ b tr, process prov catz notifier dryRun limit = .ok (b, tr) ∧
      (∀ es, Event.categorizeBatch es ∉ tr) ∧
      (∀ c, Event.sendSummary c ∉ tr) ∧
      ((notifier = none ∨ dryRun = true) → b = true ∧ tr = []) ∧
      (∀ n, notifier = some n → dryRun = false →
        tr = [Event.sendAlert "No new emails"] ∧
        (b = true ↔ ∃ v, n.sendAlert "No new emails" = .ok v)) := by
  intro prov catz notifier dryRun limit hauth hfetch
  cases notifier with
  | none =>
    refine ⟨true, [], ?_, by simp, by simp, fun _ => ⟨rfl, rfl⟩, ?_⟩
    · cases dryRun <;> simp [process, processBody, hauth, hfetch]
    · intro n hn
      exact absurd hn (by simp)
  | some n =>
    cases dryRun with
    | true =>
      refine ⟨true, [], ?_, by simp, by simp, fun _ => ⟨rfl, rfl⟩, ?_⟩
      · simp [process, processBody, hauth, hfetch]
      · intro n' _ hdr
        exact Bool.noConfusion hdr
    | false =>
      cases hsend : n.sendAlert "No new emails" with
      | ok v =>
        refine ⟨true, [Event.sendAlert "No new emails"], ?_, by simp,
          by simp, ?_, ?_⟩
        · simp [process, processBody, hauth, hfetch, hsend]
        · rintro (h | h)
          · exact Option.noConfusion h
          · exact Bool.noConfusion h
        · intro n' hn' _
          injection hn' with hn''
          subst hn''
          exact ⟨rfl, fun _ => ⟨v, hsend⟩, fun _ => rfl⟩
      | error ex =>
        refine ⟨false, [Event.sendAlert "No new emails"], ?_, by simp,
          by simp, ?_, ?_⟩
        · cases ex <;> simp [process, processBody, hauth, hfetch, hsend]
        · rintro (h | h)
          · exact Option.noConfusion h
          · exact Bool.noConfusion h
        · intro n' hn' _
          injection hn' with hn''
          subst hn''
          refine ⟨rfl, ⟨fun hb => Bool.noConfusion hb, ?_⟩⟩
          rintro ⟨v, hv⟩
          rw [hsend] at hv
          exact Except.noConfusion hv

/-- C4 witness: the amended theorem applied to the concrete empty-fetch
run. -/
theorem c4_witness :
    ∃ b tr, process provEmpty catzNone (some notifOK) false 50 =
        .ok (b, tr) ∧
      (∀ es, Event.categorizeBatch es ∉ tr) ∧
      (∀ c, Event.sendSummary c ∉ tr) ∧
      ((some notifOK = none ∨ false = true) → b = true ∧ tr = []) ∧
      (∀ n, some notifOK = some n → false = false →
        tr = [Event.sendAlert "No new emails"] ∧
        (b = true ↔ ∃ v, n.sendAlert "No new emails" = .ok v)) :=
  c4_amended provEmpty catzNone (some notifOK) false 50 rfl rfl

/-- C5, as stated, is false of `EmailProcessor.process`: categorization
completes (the categorizer returns successfully), the single notifier
reports delivery failure from `send_summary`, and the run returns False —
overall success is not independent of the notifier outcome. -/
theorem c5_counterexample :
    catzWork.categorizeBatch [workEmail] = .ok [⟨workEmail, "Work", 1, "r"⟩] ∧
    notifFail.sendSummary workCollection = .ok false ∧
    process provOne catzWork (some notifFail) false 50 =
      .ok (false, [Event.categorizeBatch [workEmail],
        Event.sendSummary workCollection]) :=
  ⟨rfl, rfl, rfl⟩

/-- C5 (amended): the code has a single optional notifier, not a fan-out.
When the pipeline reaches the notifying stage, a `send_summary` exception
or False result never propagates out of `process` (the result is always an
ordinary return), but the run's boolean success equals the notifier
outcome: True exactly when `send_summary` returns True. -/
theorem c5_amended : ∀ (prov : ProviderBehavior) (catz : CategorizerBehavior)
    (n : NotifierBehavior) (limit : Nat) (emails : List Email)
    (categorized : List CategorizedEmail),
    prov.authenticate = .ok true →
    prov.fetchUnread limit = .ok emails →
    emails ≠ [] →
    catz.categorizeBatch emails = .ok categorized →
    process prov catz (some n) false limit =
      .ok ((match n.sendSummary (buildCollection emails categorized) with
            | .ok true => true
            | _ => false),
        [Event.categorizeBatch emails,
         Event.sendSummary (buildCollection emails categorized)]) := by
  intro prov catz n limit emails categorized hauth hfetch hne hcat
  cases hsend : n.sendSummary (buildCollection emails categorized) with
  | ok v =>
    cases v <;>
      simp [process, processBody, hauth, hfetch, hcat, hsend, hne]
  | error ex =>
    cases ex <;>
      simp [process, processBody, hauth, hfetch, hcat, hsend, hne]

/-- C5 witness: the amended theorem applied to the concrete
notifier-failure run. -/
theorem c5_witness :
    process provOne catzWork (some notifFail) false 50 =
      .ok ((match notifFail.sendSummary
              (buildCollection [workEmail] [⟨workEmail, "Work", 1, "r"⟩]) with
            | .ok true => true
            | _ => false),
        [Event.categorizeBatch [workEmail],
         Event.sendSummary
           (buildCollection [workEmail] [⟨workEmail, "Work", 1, "r"⟩])]) :=
  c5_amended provOne catzWork notifFail 50 [workEmail]
    [⟨workEmail, "Work", 1, "r"⟩] rfl rfl (by decide) rfl

/-- C6, as stated, is false of `RegexCategorizer._load_rules`: it compiles
every pattern at load time with no error handling, so one malformed pattern
inside an otherwise-valid rule (its first pattern compiles fine) makes the
whole rule loading raise. -/
theorem c6_counterexample :
    litEngine.compile "team meeting" =
      .ok ⟨"team meeting", litSearch "team meeting"⟩ ∧
    loadRules litEngine [("Work", ⟨["team meeting", "["], [], some 10⟩)] =
      .error "unterminated character set" :=
  ⟨rfl, rfl⟩

/-- C6 (amended): `SimpleCategorizer` keeps patterns as strings and
compiles per match: a pattern whose compilation raises is skipped with a
warning and the remaining patterns decide the outcome, and a batch pass
always yields one result per message. `RegexCategorizer`, by contrast,
compiles at load time without catching, so a malformed pattern fails rule
loading as a whole (the counterexample). -/
theorem c6_amended :
    (∀ (eng : RegexEngine) (text bad : String) (rest : List String)
        (msg : String), eng.searchCI bad text = .error msg →
      matchesPatterns eng text (bad :: rest) =
        ((matchesPatterns eng text rest).1,
          warnMsg bad msg :: (matchesPatterns eng text rest).2)) ∧
    (∀ (eng : RegexEngine) (cats : List (String × RawRule))
        (emails : List Email),
      (simpleCategorizeBatch eng cats emails).length = emails.length) := by
  constructor
  · intro eng text bad rest msg h
    simp [matchesPatterns, h]
  · intro eng cats emails
    simp [simpleCategorizeBatch]

/-- C6 witness: the amended theorem applied to the malformed pattern next
to a valid one. -/
theorem c6_witness :
    litEngine.searchCI "[" "team sync" = .error "unterminated character set" ∧
    matchesPatterns litEngine "team sync" ["[", "team"] =
      ((matchesPatterns litEngine "team sync" ["team"]).1,
        warnMsg "[" "unterminated character set" ::
          (matchesPatterns litEngine "team sync" ["team"]).2) :=
  ⟨rfl, c6_amended.1 litEngine "team sync" "[" ["team"]
    "unterminated character set" rfl⟩

/-- C7, as stated, is false of `RegexCategorizer`: `_load_rules` compiles
content patterns without `re.IGNORECASE` and `_match` searches the
unmodified subject+snippet, so the literal pattern FREE matches the
upper-case subject but not its lower-case variant. -/
theorem c7_counterexample :
    loadRules litEngine [("Promo", ⟨["FREE"], [], some 1⟩)] = .ok promoRules ∧
    lowerStr promoLower.subject = lowerStr promoUpper.subject ∧
    promoLower.snippet = promoUpper.snippet ∧
    promoLower.sender = promoUpper.sender ∧
    regexCategorize promoRules promoUpper = "Promo" ∧
    regexCategorize promoRules promoLower = "Uncategorized" :=
  ⟨rfl, by decide, rfl, rfl, by decide, by decide⟩

/-- C7 (amended): `SimpleCategorizer` matches content patterns
case-insensitively — it lowercases subject+snippet (and searches with
`re.IGNORECASE`), so two messages with the same sender whose texts agree up
to case are always assigned the same category. `RegexCategorizer` compiles
patterns without `re.IGNORECASE` and matches case-sensitively (the
counterexample) unless a pattern embeds its own inline flag. -/
theorem c7_amended : ∀ (eng : RegexEngine) (cats : List (String × RawRule))
    (e1 e2 : Email),
    e1.sender = e2.sender →
    lowerStr (e1.subject ++ " " ++ e1.snippet) =
      lowerStr (e2.subject ++ " " ++ e2.snippet) →
    simpleCategorize eng cats e1 = simpleCategorize eng cats e2 := by
  intro eng cats e1 e2 hs ht
  have hrules : ∀ r : RawRule,
      matchesRules eng e1 r = matchesRules eng e2 r := by
    intro r
    unfold matchesRules
    rw [hs, ht]
  unfold simpleCategorize simpleMatches
  simp only [hrules]

/-- C7 witness: the amended theorem applied to the same message in upper
and lower case under `SimpleCategorizer`. -/
theorem c7_witness :
    promoUpper.sender = promoLower.sender ∧
    lowerStr (promoUpper.subject ++ " " ++ promoUpper.snippet) =
      lowerStr (promoLower.subject ++ " " ++ promoLower.snippet) ∧
    simpleCategorize litEngine [("Promo", ⟨["free"], [], some 1⟩)]
        promoUpper =
      simpleCategorize litEngine [("Promo", ⟨["free"], [], some 1⟩)]
        promoLower :=
  ⟨rfl, by decide,
   c7_amended litEngine [("Promo", ⟨["free"], [], some 1⟩)] promoUpper
     promoLower rfl (by decide)⟩

/-- C8, as stated, is false of `SimpleCategorizer.get_categories`: it
returns the configured names in configuration order with no sorting and no
appended fallback — for Work, Admin it returns that order, not
Admin, Work, Uncategorized. -/
theorem c8_counterexample :
    simpleGetCategories [("Work", plainRaw), ("Admin", plainRaw)] =
      ["Work", "Admin"] ∧
    (["Work", "Admin"] : List String) ≠ ["Admin", "Work", "Uncategorized"] :=
  ⟨rfl, by decide⟩

/-- C8 (amended): `RegexCategorizer.get_categories` behaves as claimed —
last element Uncategorized, the prefix alphabetically sorted and a
permutation of the configured names, and concretely
[Admin, Work, Uncategorized] for configured Work and Admin — while
`SimpleCategorizer.get_categories` returns the configured names in
configuration order, unsorted and without the fallback. -/
theorem c8_amended :
    (∀ rules : List (String × CompiledRule),
      (regexGetCategories rules).getLast? = some "Uncategorized") ∧
    (∀ rules : List (String × CompiledRule),
      List.Sorted strOrder (regexGetCategories rules).dropLast) ∧
    (∀ rules : List (String × CompiledRule),
      (regexGetCategories rules).dropLast.Perm (rules.map Prod.fst)) ∧
    regexGetCategories [("Work", plainRule), ("Admin", plainRule)] =
      ["Admin", "Work", "Uncategorized"] ∧
    (∀ cats : List (String × RawRule),
      simpleGetCategories cats = cats.map Prod.fst) := by
  refine ⟨?_, ?_, ?_, by decide, fun _ => rfl⟩
  · intro rules
    unfold regexGetCategories
    rw [List.getLast?_append]
    rfl
  · intro rules
    unfold regexGetCategories
    rw [List.dropLast_concat]
    exact List.sorted_insertionSort strOrder _
  · intro rules
    unfold regexGetCategories
    rw [List.dropLast_concat]
    exact List.perm_insertionSort strOrder _

/-- C9: the collection built by `process` satisfies the aggregation
invariant: its `total_count` equals the number of categorized messages
(given that the categorizer returned one result per fetched message, which
both categorizers do — the batch-length conjuncts) and the per-category
counts sum to `total_count`. -/
theorem c9_aggregation :
    (∀ (emails : List Email) (categorized : List CategorizedEmail),
      categorized.length = emails.length →
      (buildCollection emails categorized).total_count = categorized.length ∧
      sumCounts (buildCollection emails categorized).by_category =
        (buildCollection emails categorized).total_count) ∧
    (∀ (rules : List (String × CompiledRule)) (es : List Email),
      (regexCategorizeBatch rules es).length = es.length) ∧
    (∀ (eng : RegexEngine) (cats : List (String × RawRule))
        (es : List Email),
      (simpleCategorizeBatch eng cats es).length = es.length) := by
  refine ⟨?_, fun rules es => by simp [regexCategorizeBatch],
    fun eng cats es => by simp [simpleCategorizeBatch]⟩
  intro emails categorized h
  constructor
  · simp [buildCollection, h]
  · show sumCounts (buildByCategory categorized) = emails.length
    unfold buildByCategory
    rw [sumCounts_fold]
    simp [sumCounts, h]

/-- C9 witness: the aggregation invariant at a concrete one-message
collection. -/
theorem c9_witness :
    (buildCollection [workEmail] [⟨workEmail, "Work", 1, "r"⟩]).total_count =
      ([⟨workEmail, "Work", 1, "r"⟩] : List CategorizedEmail).length ∧
    sumCounts (buildCollection [workEmail]
        [⟨workEmail, "Work", 1, "r"⟩]).by_category =
      (buildCollection [workEmail]
        [⟨workEmail, "Work", 1, "r"⟩]).total_count :=
  c9_aggregation.1 [workEmail] [⟨workEmail, "Work", 1, "r"⟩] rfl

/-- C10: `process` is total at its public boundary: for every collaborator
behavior it returns an ordinary boolean result (never a propagated
exception), and whenever the pipeline body raises any exception, the
returned value is False with the call trace accumulated so far. -/
theorem c10_total_boundary :
    (∀ (prov : ProviderBehavior) (catz : CategorizerBehavior)
        (notifier : Option NotifierBehavior) (dryRun : Bool) (limit : Nat),
      ∃ r, process prov catz notifier dryRun limit = .ok r) ∧
    (∀ (prov : ProviderBehavior) (catz : CategorizerBehavior)
        (notifier : Option NotifierBehavior) (dryRun : Bool) (limit : Nat)
        (ex : Exc) (tr : List Event),
      processBody prov catz notifier dryRun limit = .error (ex, tr) →
      process prov catz notifier dryRun limit = .ok (false, tr)) := by
  constructor
  · intro prov catz notifier dryRun limit
    unfold process
    cases h : processBody prov catz notifier dryRun limit with
    | ok r => exact ⟨r, rfl⟩
    | error et =>
      obtain ⟨ex, tr⟩ := et
      cases ex <;> exact ⟨(false, tr), rfl⟩
  · intro prov catz notifier dryRun limit ex tr h
    unfold process
    rw [h]
    cases ex <;> rfl

/-- C10 witness: a provider whose `authenticate` raises `ProviderError`;
`process` still returns an ordinary False. -/
theorem c10_witness :
    processBody provRaise catzNone none false 50 =
      .error (Exc.providerError "api down", []) ∧
    process provRaise catzNone none false 50 = .ok (false, []) :=
  ⟨rfl, c10_total_boundary.2 provRaise catzNone none false 50
    (Exc.providerError "api down") [] rfl⟩

end DCGMail
